import Mathlib

/-!
Shallow embedding of the nacos-sdk-go client pieces covered by the design
spec: the logger package (from the source file in the repository), the
naming connection-event listener redo cache (modelled from the spec and
the sampled test, as the listener implementation itself is not among the
source files), the redo ledger, and the request dispatcher (both modelled
from the spec).
-/

/-! ## Logger package (embedded from the source logger file) -/

/-- The four zapcore levels referenced by the source (`levelMap` and
`getLogLevel` use only debug, info, warn, error). -/
inductive ZapLevel
  | DebugLevel
  | InfoLevel
  | WarnLevel
  | ErrorLevel
deriving DecidableEq

/-- Embeds `var levelMap = map[string]zapcore.Level{...}` from the source. -/
def levelMap : List (String × ZapLevel) :=
  [("debug", ZapLevel.DebugLevel),
   ("info", ZapLevel.InfoLevel),
   ("warn", ZapLevel.WarnLevel),
   ("error", ZapLevel.ErrorLevel)]

/-- Embeds `getLogLevel`: look the string up in `levelMap`, defaulting to
`InfoLevel` when absent. -/
def getLogLevel (level : String) : ZapLevel :=
  match levelMap.lookup level with
  | some zapLevel => zapLevel
  | none => ZapLevel.InfoLevel

/-- Embeds the `SamplingConfig` struct of the source. -/
structure SamplingConfig where
  Initial : Int
  Thereafter : Int
  Tick : Int
deriving DecidableEq

/-- Embeds the `lumberjack.Logger` rolling-file settings the source copies. -/
structure LumberjackLogger where
  Filename : String
  MaxSize : Int
  MaxAge : Int
  MaxBackups : Int
  LocalTime : Bool
  Compress : Bool
deriving DecidableEq

/-- Embeds the `Config` struct of the source; pointer-typed fields become
`Option`. -/
structure Config where
  IsDevNull : Bool
  Level : String
  Sampling : Option SamplingConfig
  LogFormat : String
  AppendToStdout : Bool
  LogRollingConfig : Option LumberjackLogger
deriving DecidableEq

/-- A recorded call to one of the leveled logger methods: its level,
whether it was the formatted variant, the format string and arguments. -/
structure LogCall where
  level : ZapLevel
  formatted : Bool
  fmtStr : String
  args : List String
deriving DecidableEq

/-- Embeds the `Logger` interface of the source: four plain leveled
methods and four formatted ones.  Each method is modelled as producing
the `LogCall` it makes. -/
structure Logger where
  Info : List String → LogCall
  Warn : List String → LogCall
  Error : List String → LogCall
  Debug : List String → LogCall
  Infof : String → List String → LogCall
  Warnf : String → List String → LogCall
  Errorf : String → List String → LogCall
  Debugf : String → List String → LogCall

/-- The eight method names of the `Logger` interface. -/
inductive LoggerMethod
  | Info
  | Warn
  | Error
  | Debug
  | Infof
  | Warnf
  | Errorf
  | Debugf
deriving DecidableEq

/-- All eight methods, as listed in the source interface. -/
def loggerMethods : List LoggerMethod :=
  [LoggerMethod.Info, LoggerMethod.Warn, LoggerMethod.Error, LoggerMethod.Debug,
   LoggerMethod.Infof, LoggerMethod.Warnf, LoggerMethod.Errorf, LoggerMethod.Debugf]

/-- The level addressed by each interface method. -/
def methodLevel : LoggerMethod → ZapLevel
  | LoggerMethod.Info => ZapLevel.InfoLevel
  | LoggerMethod.Warn => ZapLevel.WarnLevel
  | LoggerMethod.Error => ZapLevel.ErrorLevel
  | LoggerMethod.Debug => ZapLevel.DebugLevel
  | LoggerMethod.Infof => ZapLevel.InfoLevel
  | LoggerMethod.Warnf => ZapLevel.WarnLevel
  | LoggerMethod.Errorf => ZapLevel.ErrorLevel
  | LoggerMethod.Debugf => ZapLevel.DebugLevel

/-- Whether the interface method is the formatted (`...f`) variant. -/
def methodFormatted : LoggerMethod → Bool
  | LoggerMethod.Infof => true
  | LoggerMethod.Warnf => true
  | LoggerMethod.Errorf => true
  | LoggerMethod.Debugf => true
  | _ => false

/-- Dispatch a call through a `Logger` value by method name; plain
methods ignore the format string, mirroring their arity in the source. -/
def callMethod (l : Logger) : LoggerMethod → String → List String → LogCall
  | LoggerMethod.Info, _, args => l.Info args
  | LoggerMethod.Warn, _, args => l.Warn args
  | LoggerMethod.Error, _, args => l.Error args
  | LoggerMethod.Debug, _, args => l.Debug args
  | LoggerMethod.Infof, f, args => l.Infof f args
  | LoggerMethod.Warnf, f, args => l.Warnf f args
  | LoggerMethod.Errorf, f, args => l.Errorf f args
  | LoggerMethod.Debugf, f, args => l.Debugf f args

/-- The two level encoders appearing in the source encoder configs. -/
inductive LevelEncoder
  | capital
  | capitalColor
deriving DecidableEq

/-- Embeds the fields of `zapcore.EncoderConfig` set by the source. -/
structure EncoderConfig where
  TimeKey : String
  LevelKey : String
  NameKey : String
  CallerKey : String
  MessageKey : String
  StacktraceKey : String
  EncodeLevel : LevelEncoder
deriving DecidableEq

/-- Embeds `getEncoder` from the source. -/
def getEncoder : EncoderConfig :=
  ⟨"time", "level", "logger", "caller", "message", "stacktrace", LevelEncoder.capital⟩

/-- Console vs JSON encoder choice made in `InitNacosLogger`. -/
inductive EncoderKind
  | console
  | json
deriving DecidableEq

/-- The write targets a zapcore write syncer can be built from in the
source: `io.Discard`, stdout, the lumberjack rolling file, or a
multi-write syncer combining two of them. -/
inductive WriteSyncer
  | discard
  | stdout
  | rolling (config : Option LumberjackLogger)
  | multi (a b : WriteSyncer)
deriving DecidableEq

/-- Embeds the `getLogWriter` method: a syncer over `LogRollingConfig`. -/
def Config.getLogWriter (c : Config) : WriteSyncer :=
  WriteSyncer.rolling c.LogRollingConfig

/-- The ingredients `InitNacosLogger` assembles into the zap core before
wrapping it in a `NacosLogger`. -/
structure NacosLoggerCore where
  encoderKind : EncoderKind
  encoderConfig : EncoderConfig
  writer : WriteSyncer
  level : ZapLevel
deriving DecidableEq

/-- A value the package-global `logger` variable can hold: either a
`NacosLogger` built by `InitNacosLogger`, or any caller-supplied
implementation of the `Logger` interface installed via `SetLogger`. -/
inductive InstalledLogger
  | nacos (core : NacosLoggerCore)
  | custom (log : Logger)

/-- The write syncer of an installed `NacosLogger`, when that is what is
installed. -/
def writerOf : Option InstalledLogger → Option WriteSyncer
  | some (InstalledLogger.nacos core) => some core.writer
  | _ => none

/-- Embeds `InitNacosLogger`: pick the level, the encoder config, the
writer (discard when `IsDevNull`, else the rolling-file writer, optionally
multiplexed with stdout), the console or JSON encoder, and return the
built logger together with a nil error. -/
def InitNacosLogger (config : Config) : Option InstalledLogger × Option String :=
  let logLevel := getLogLevel config.Level
  let encoder := getEncoder
  let writer0 := WriteSyncer.discard
  let writer1 := if config.IsDevNull = false then Config.getLogWriter config else writer0
  let writer2 := if config.AppendToStdout then WriteSyncer.multi writer1 WriteSyncer.stdout else writer1
  let encoderFn := if config.LogFormat.toLower = "json" then EncoderKind.json else EncoderKind.console
  (some (InstalledLogger.nacos ⟨encoderFn, encoder, writer2, logLevel⟩), none)

/-- Embeds `InitLogger` as a function of the global `logger` variable:
when a logger is already installed it returns immediately with a nil
error and leaves the variable unchanged; otherwise it installs the result
of `InitNacosLogger`. -/
def InitLogger (st : Option InstalledLogger) (config : Config) :
    Option InstalledLogger × Option String :=
  match st with
  | some _ => (st, none)
  | none => InitNacosLogger config

/-- Embeds `SetLogger` as a function of the global `logger` variable. -/
def SetLogger (_st : Option InstalledLogger) (log : InstalledLogger) :
    Option InstalledLogger :=
  some log

/-- Embeds `GetLogger` as a function of the global `logger` variable. -/
def GetLogger (st : Option InstalledLogger) : Option InstalledLogger :=
  st

/-- A concrete dev-null config used to instantiate theorems. -/
def sampleConfig : Config :=
  ⟨true, "info", none, "", false, none⟩

/-- A concrete logger core used to instantiate theorems. -/
def sampleCore : NacosLoggerCore :=
  ⟨EncoderKind.console, getEncoder, WriteSyncer.discard, ZapLevel.InfoLevel⟩

/-! ## Naming connection-event listener redo cache

Modelled from the spec: the listener implementation (the subscriber redo
cache behind `CacheSubscriberForRedo` / `RemoveSubscriberForRedo` /
`redoSubscribe`) and the `util.GetGroupName` helper are not among the
source files — only the sampled test that drives them is.  The model
follows the spec scenario and the test: keys join group, service and (when
non-empty) cluster with the `@@` spliter; caching is idempotent per key;
one redo pass issues one Subscribe call per cached key, recovering the
service name, group name and clusters by splitting the key. -/

/-- The `@@` separator joining the parts of a service key. -/
def SERVICE_INFO_SPLITER : String := "@@"

/-- Modelled from the spec and the test: `util.GetGroupName` joins the
group name and the service name with the spliter. -/
def GetGroupName (serviceName groupName : String) : String :=
  groupName ++ SERVICE_INFO_SPLITER ++ serviceName

/-- Modelled from the spec: the cache key of a subscriber appends the
cluster string to the full service name when the cluster is non-empty. -/
def GetServiceCacheKey (serviceName clusters : String) : String :=
  if clusters = "" then serviceName
  else serviceName ++ SERVICE_INFO_SPLITER ++ clusters

/-- Whether the second character list begins with the first one. -/
def leadsWith : List Char → List Char → Bool
  | [], _ => true
  | _ :: _, [] => false
  | a :: as, b :: bs => a == b && leadsWith as bs

/-- Fuel-driven worker splitting a character list around a separator,
mirroring Go `strings.Split` for a non-empty separator. -/
def splitAux (sep : List Char) : Nat → List Char → List Char → List (List Char)
  | 0, s, acc => [acc.reverse ++ s]
  | fuel + 1, s, acc =>
    match s with
    | [] => [acc.reverse]
    | c :: rest =>
      if leadsWith sep (c :: rest) then
        acc.reverse :: splitAux sep fuel (List.drop sep.length (c :: rest)) []
      else
        splitAux sep fuel rest (c :: acc)

/-- Split a string around every occurrence of a non-empty separator, as
Go `strings.Split` does. -/
def stringSplit (s sep : String) : List String :=
  if sep = "" then [s]
  else (splitAux sep.toList (s.toList.length + 1) s.toList []).map String.mk

/-- Modelled from the spec: the listener keeps the set of cached
subscriber keys (a Go map used as a set; insertion order stands in for the
iteration order of one redo pass). -/
structure ConnectionEventListener where
  subscribedServices : List String
deriving DecidableEq

/-- A fresh listener with no cached subscriber. -/
def NewConnectionEventListener : ConnectionEventListener :=
  ⟨[]⟩

/-- Modelled from the spec: cache a subscriber key for redo; caching an
already-present key changes nothing (keys are unique, no duplicates). -/
def CacheSubscriberForRedo (c : ConnectionEventListener)
    (fullServiceName clusters : String) : ConnectionEventListener :=
  let key := GetServiceCacheKey fullServiceName clusters
  if key ∈ c.subscribedServices then c else ⟨c.subscribedServices ++ [key]⟩

/-- Modelled from the spec: drop the subscriber key from the redo cache. -/
def RemoveSubscriberForRedo (c : ConnectionEventListener)
    (fullServiceName clusters : String) : ConnectionEventListener :=
  ⟨c.subscribedServices.filter
    (fun k => decide (k ≠ GetServiceCacheKey fullServiceName clusters))⟩

/-- One Subscribe call issued by a redo pass, with its arguments. -/
structure SubscribeCall where
  serviceName : String
  groupName : String
  clusters : String
deriving DecidableEq

/-- Modelled from the spec: recover the Subscribe arguments from a cached
key by splitting it at the spliter — group name first, then service name,
then (when present) the clusters. -/
def subscribeCallOfKey (key : String) : SubscribeCall :=
  let info := stringSplit key SERVICE_INFO_SPLITER
  if 2 < info.length then
    ⟨info.getD 1 "", info.getD 0 "", info.getD 2 ""⟩
  else
    ⟨info.getD 1 "", info.getD 0 "", ""⟩

/-- Modelled from the spec: one redo pass issues one Subscribe call per
cached key. -/
def redoSubscribe (c : ConnectionEventListener) : List SubscribeCall :=
  c.subscribedServices.map subscribeCallOfKey

/-- The listener after caching the two subscribers of the spec scenario. -/
def listenerScenarioCached : ConnectionEventListener :=
  CacheSubscriberForRedo
    (CacheSubscriberForRedo NewConnectionEventListener
      (GetGroupName "service-a" "group-a") "")
    (GetGroupName "service-b" "group-b") "cluster-b"

/-- The scenario listener after removing both subscribers again. -/
def listenerScenarioRemoved : ConnectionEventListener :=
  RemoveSubscriberForRedo
    (RemoveSubscriberForRedo listenerScenarioCached
      (GetGroupName "service-a" "group-a") "")
    (GetGroupName "service-b" "group-b") "cluster-b"

/-! ## RedoService ledger

Modelled from the spec: the redo ledger and its scan are not among the
source files.  The model follows the data-model and RedoService sections
of the spec: an entry table keyed by RedoKey, `cacheForRedo` upserting
with `expectRegistered = true` and `registered = false`, `markForRemoval`
setting both flags false, a forced `registered = false` for every entry on
a Disconnected event, and a periodic scan over the entries whose
`registered` flag differs from `expectRegistered`, removals first. -/

/-- The registration kinds named by the spec data model. -/
inductive RegKind
  | subscription
  | configListener
  | removeMarker
deriving DecidableEq

/-- Modelled from the spec: the composite identity of a registration. -/
structure RedoKey where
  kind : RegKind
  name : String
  group : String
  namespaceId : String
deriving DecidableEq

/-- Modelled from the spec: one redo ledger entry. -/
structure RedoEntry where
  payload : String
  registered : Bool
  expectRegistered : Bool
  retryCount : Nat
deriving DecidableEq

/-- The redo ledger: an association table from keys to entries; the
key-uniqueness invariant is stated over `keysOf`. -/
abbrev RedoTable := List (RedoKey × RedoEntry)

/-- The keys present in a redo table. -/
def keysOf (t : RedoTable) : List RedoKey :=
  t.map Prod.fst

/-- Modelled from the spec: upsert — an existing entry for the key is
overwritten in place (last write wins), a new key is appended; the stored
entry carries the payload with `expectRegistered = true`,
`registered = false` and a fresh retry count. -/
def cacheForRedo (t : RedoTable) (k : RedoKey) (p : String) : RedoTable :=
  if k ∈ keysOf t then
    t.map (fun q => if q.1 = k then (k, ⟨p, false, true, 0⟩) else q)
  else
    t ++ [(k, ⟨p, false, true, 0⟩)]

/-- Modelled from the spec: mark the entry for the key as pending removal
(`expectRegistered = false`, `registered = false`), keeping the payload. -/
def markForRemoval (t : RedoTable) (k : RedoKey) : RedoTable :=
  t.map (fun q =>
    if q.1 = k then (q.1, ⟨q.2.payload, false, false, q.2.retryCount⟩) else q)

/-- Modelled from the spec: a Disconnected event resets `registered` to
false for every live entry. -/
def onDisconnected (t : RedoTable) : RedoTable :=
  t.map (fun q => (q.1, ⟨q.2.payload, false, q.2.expectRegistered, q.2.retryCount⟩))

/-- An entry is due for the scan when its confirmation state differs from
its expected state. -/
def needsRedo (e : RedoEntry) : Bool :=
  e.registered != e.expectRegistered

/-- The entries a scan tick considers. -/
def dueEntries (t : RedoTable) : RedoTable :=
  t.filter (fun q => needsRedo q.2)

/-- A request the scan issues: replay a registration, or remove one. -/
inductive RedoAction
  | register (k : RedoKey) (payload : String)
  | remove (k : RedoKey)
deriving DecidableEq

/-- Whether the action is a registration replay. -/
def RedoAction.isRegister : RedoAction → Bool
  | RedoAction.register _ _ => true
  | RedoAction.remove _ => false

/-- Modelled from the spec: the requests one scan tick issues, removal
entries first, then registration entries, one per due entry. -/
def scanActions (t : RedoTable) : List RedoAction :=
  ((dueEntries t).filter (fun q => q.2.expectRegistered = false)).map
      (fun q => RedoAction.remove q.1)
    ++ ((dueEntries t).filter (fun q => q.2.expectRegistered = true)).map
      (fun q => RedoAction.register q.1 q.2.payload)

/-- Modelled from the spec: the per-entry outcome handling of one tick —
a confirmed registration sets `registered = true` and resets the retry
count, a failed one bumps the retry count, a confirmed removal deletes
the entry, a failed removal leaves it for the next tick, and an entry not
due is untouched. -/
def applyOutcome (success : RedoKey → Bool) (q : RedoKey × RedoEntry) :
    Option (RedoKey × RedoEntry) :=
  if needsRedo q.2 = false then some q
  else if q.2.expectRegistered then
    if success q.1 then
      some (q.1, ⟨q.2.payload, true, true, 0⟩)
    else
      some (q.1, ⟨q.2.payload, false, true, q.2.retryCount + 1⟩)
  else
    if success q.1 then none else some q

/-- Modelled from the spec: the redo table after one scan tick whose
request outcomes are given by `success`. -/
def redoTick (success : RedoKey → Bool) (t : RedoTable) : RedoTable :=
  t.filterMap (applyOutcome success)

/-- The capped retry period for exhausted entries; the spec leaves the
concrete value open, any fixed positive period works. -/
def exhaustedRetryPeriod : Nat := 10

/-- Whether the retry count of an entry exceeds the configured cap. -/
def isExhausted (cap : Nat) (e : RedoEntry) : Bool :=
  decide (cap < e.retryCount)

/-- Modelled from the spec: the due entries attempted at a given tick —
an exhausted entry is still retried, but only on the capped-frequency
ticks; it is never dropped. -/
def dueAtTick (cap tickNo : Nat) (t : RedoTable) : RedoTable :=
  (dueEntries t).filter
    (fun q => !isExhausted cap q.2 || decide (tickNo % exhaustedRetryPeriod = 0))

/-- A concrete key used to instantiate theorems. -/
def sampleKey : RedoKey :=
  ⟨RegKind.subscription, "service-a", "group-a", "public"⟩

/-- A concrete removal-pending entry. -/
def entryRemoval : RedoEntry :=
  ⟨"payload-r", false, false, 0⟩

/-- A concrete confirmed registration entry. -/
def entryLive : RedoEntry :=
  ⟨"payload-l", true, true, 2⟩

/-- A concrete unconfirmed entry with an exhausted retry count. -/
def entryExhausted : RedoEntry :=
  ⟨"payload-x", false, true, 7⟩

/-! ## RequestDispatcher

Modelled from the spec: the dispatcher is not among the source files.
The model follows the RequestDispatcher section of the spec: a pending
slot per in-flight request with a deadline; a slot resolves on a
correlated response, on deadline expiry with a Timeout error, or — for
every outstanding slot at once — with a ConnectionLost error the moment
the connection is lost. -/

/-- A pending request slot: correlation id and deadline. -/
structure PendingRequest where
  rid : Nat
  deadline : Nat
deriving DecidableEq

/-- The error kinds of the spec error-handling section used here. -/
inductive ReqError
  | Timeout
  | ConnectionLost
  | ConnectionUnavailable
  | ClientClosed
deriving DecidableEq

/-- How a slot resolved: a response body, or an error. -/
inductive ReqOutcome
  | ok (body : String)
  | fail (e : ReqError)
deriving DecidableEq

/-- One resolved slot: its id, the instant it resolved, the outcome. -/
structure Resolution where
  rid : Nat
  time : Nat
  outcome : ReqOutcome
deriving DecidableEq

/-- The dispatcher state: the pending-request table of one connection. -/
structure Dispatcher where
  pending : List PendingRequest
deriving DecidableEq

/-- The events that resolve pending slots. -/
inductive DispatchEvent
  | response (rid : Nat) (body : String) (now : Nat)
  | timeoutScan (now : Nat)
  | connectionLost (now : Nat)

/-- A concrete pending request used to instantiate theorems. -/
def samplePending : PendingRequest :=
  ⟨1, 100⟩

/-- Modelled from the spec: one dispatcher step — a correlated response
resolves its slot, a timeout scan resolves every slot whose deadline has
elapsed with Timeout, and a connection loss immediately resolves every
outstanding slot with ConnectionLost. -/
def dispatcherStep (d : Dispatcher) : DispatchEvent → Dispatcher × List Resolution
  | DispatchEvent.response rid body now =>
    (⟨d.pending.filter (fun r => decide (r.rid ≠ rid))⟩,
      (d.pending.filter (fun r => decide (r.rid = rid))).map
        (fun r => ⟨r.rid, now, ReqOutcome.ok body⟩))
  | DispatchEvent.timeoutScan now =>
    (⟨d.pending.filter (fun r => decide (now < r.deadline))⟩,
      (d.pending.filter (fun r => decide (r.deadline ≤ now))).map
        (fun r => ⟨r.rid, now, ReqOutcome.fail ReqError.Timeout⟩))
  | DispatchEvent.connectionLost now =>
    (⟨[]⟩,
      d.pending.map (fun r => ⟨r.rid, now, ReqOutcome.fail ReqError.ConnectionLost⟩))

/-! ## Theorems -/

/-- Claim C1: after caching the subscriber key built from service-a /
group-a with empty clusters and the one built from service-b / group-b
with clusters cluster-b, one redo pass issues exactly one Subscribe call
per cached key with exactly those arguments — no duplicates and no
omissions; after removing each key, a further redo pass issues zero
Subscribe calls. -/
theorem redoSubscribe_scenario_exact :
    redoSubscribe listenerScenarioCached =
      [⟨"service-a", "group-a", ""⟩, ⟨"service-b", "group-b", "cluster-b"⟩] ∧
    redoSubscribe listenerScenarioRemoved = [] := by
  decide

/-- Claim C7: the diagnostics collaborator is the `Logger` interface,
exposing exactly one method per level and form — the four plain leveled
calls Info / Warn / Error / Debug and the four formatted ones Infof /
Warnf / Errorf / Debugf — and it is an injected dependency: whatever
logger is supplied through `SetLogger` is the one the core obtains from
`GetLogger`. -/
theorem logger_interface_levels :
    (∀ lv : ZapLevel, ∀ fm : Bool,
      (loggerMethods.filter
        (fun m => methodLevel m == lv && methodFormatted m == fm)).length = 1) ∧
    (∀ (l : Logger) (s : String) (a : List String),
      callMethod l LoggerMethod.Info s a = l.Info a ∧
      callMethod l LoggerMethod.Warn s a = l.Warn a ∧
      callMethod l LoggerMethod.Error s a = l.Error a ∧
      callMethod l LoggerMethod.Debug s a = l.Debug a ∧
      callMethod l LoggerMethod.Infof s a = l.Infof s a ∧
      callMethod l LoggerMethod.Warnf s a = l.Warnf s a ∧
      callMethod l LoggerMethod.Errorf s a = l.Errorf s a ∧
      callMethod l LoggerMethod.Debugf s a = l.Debugf s a) ∧
    (∀ (st : Option InstalledLogger) (log : InstalledLogger),
      GetLogger (SetLogger st log) = some log) := by
  refine ⟨?_, ?_, ?_⟩
  · intro lv fm
    cases lv <;> cases fm <;> decide
  · intro l s a
    exact ⟨rfl, rfl, rfl, rfl, rfl, rfl, rfl, rfl⟩
  · intro st log
    rfl

/-- Claim C8: logger installation is first-write-wins — with a logger
already installed, `InitLogger` returns a nil error and leaves the
installed logger unchanged; only from the empty state does it install the
logger `InitNacosLogger` builds from the config. -/
theorem initLogger_first_write_wins (config : Config) (st : Option InstalledLogger) :
    (∀ l0 : InstalledLogger, st = some l0 → InitLogger st config = (st, none)) ∧
    (st = none → InitLogger st config = InitNacosLogger config) := by
  constructor
  · intro l0 h
    subst h
    rfl
  · intro h
    subst h
    rfl

/-- Witness for C8 at a concrete installed logger and config. -/
theorem initLogger_first_write_wins_witness :
    InitLogger (some (InstalledLogger.nacos sampleCore)) sampleConfig =
      (some (InstalledLogger.nacos sampleCore), none) ∧
    InitLogger none sampleConfig = InitNacosLogger sampleConfig :=
  ⟨(initLogger_first_write_wins sampleConfig
      (some (InstalledLogger.nacos sampleCore))).1 (InstalledLogger.nacos sampleCore) rfl,
   (initLogger_first_write_wins sampleConfig none).2 rfl⟩

/-- Claim C9: `getLogLevel` is total with a default — it maps the four
strings debug / info / warn / error to their zap levels and every other
string, the empty string and capitalized variants included, to
`InfoLevel`. -/
theorem getLogLevel_total_default :
    (getLogLevel "debug" = ZapLevel.DebugLevel ∧
     getLogLevel "info" = ZapLevel.InfoLevel ∧
     getLogLevel "warn" = ZapLevel.WarnLevel ∧
     getLogLevel "error" = ZapLevel.ErrorLevel) ∧
    (∀ s : String, s ≠ "debug" → s ≠ "info" → s ≠ "warn" → s ≠ "error" →
      getLogLevel s = ZapLevel.InfoLevel) := by
  constructor
  · exact ⟨rfl, rfl, rfl, rfl⟩
  · intro s h1 h2 h3 h4
    have e1 : (s == "debug") = false := by
      rw [beq_eq_false_iff_ne]
      exact h1
    have e2 : (s == "info") = false := by
      rw [beq_eq_false_iff_ne]
      exact h2
    have e3 : (s == "warn") = false := by
      rw [beq_eq_false_iff_ne]
      exact h3
    have e4 : (s == "error") = false := by
      rw [beq_eq_false_iff_ne]
      exact h4
    simp [getLogLevel, levelMap, List.lookup, e1, e2, e3, e4]

/-- Witness for C9 at the strings Debug and empty. -/
theorem getLogLevel_total_default_witness :
    getLogLevel "Debug" = ZapLevel.InfoLevel ∧ getLogLevel "" = ZapLevel.InfoLevel :=
  ⟨getLogLevel_total_default.2 "Debug" (by decide) (by decide) (by decide) (by decide),
   getLogLevel_total_default.2 "" (by decide) (by decide) (by decide) (by decide)⟩

/-- Claim C10: `InitNacosLogger` never fails — for every config it
returns a present logger and a nil error; and for a dev-null config
without stdout appending, the logger writes to the discarding sink. -/
theorem initNacosLogger_never_fails (config : Config) :
    (InitNacosLogger config).2 = none ∧
    (InitNacosLogger config).1.isSome = true ∧
    (config.IsDevNull = true → config.AppendToStdout = false →
      writerOf (InitNacosLogger config).1 = some WriteSyncer.discard) := by
  refine ⟨rfl, rfl, ?_⟩
  intro h1 h2
  simp [InitNacosLogger, writerOf, h1, h2]

/-- Witness for C10 at the concrete dev-null config. -/
theorem initNacosLogger_never_fails_witness :
    (InitNacosLogger sampleConfig).2 = none ∧
    writerOf (InitNacosLogger sampleConfig).1 = some WriteSyncer.discard :=
  ⟨(initNacosLogger_never_fails sampleConfig).1,
   (initNacosLogger_never_fails sampleConfig).2.2 rfl rfl⟩

/-- Claim C2, counterexample: a live removal-pending entry
(`expectRegistered = false`) does not satisfy
`registered ≠ expectRegistered` after a Disconnected event — both flags
are false — and the next scan tick issues nothing for it, so not every
live entry is replayed. -/
theorem disconnect_counterexample :
    onDisconnected [(sampleKey, entryRemoval)] = [(sampleKey, entryRemoval)] ∧
    needsRedo entryRemoval = false ∧
    scanActions (onDisconnected [(sampleKey, entryRemoval)]) = [] := by
  decide

/-- Claim C2 as amended: a Disconnected event resets `registered` to
false for every live entry, regardless of its prior confirmation state;
consequently every live entry whose `expectRegistered` flag is true
satisfies `registered ≠ expectRegistered` at the first scan tick and is
replayed (a registration request for it is among the scan actions).
Removal-pending entries are reset too, but end up with
`registered = expectRegistered = false` and are not replayed. -/
theorem disconnect_invalidates_registrations (t : RedoTable) :
    (∀ q ∈ onDisconnected t, q.2.registered = false) ∧
    (∀ q ∈ onDisconnected t, q.2.expectRegistered = true →
      needsRedo q.2 = true ∧
      RedoAction.register q.1 q.2.payload ∈ scanActions (onDisconnected t)) := by
  constructor
  · intro q hq
    obtain ⟨p, _, rfl⟩ := List.mem_map.mp hq
    rfl
  · intro q hq hexp
    have hreg : q.2.registered = false := by
      obtain ⟨p, _, rfl⟩ := List.mem_map.mp hq
      rfl
    have hneed : needsRedo q.2 = true := by
      simp [needsRedo, hreg, hexp]
    refine ⟨hneed, ?_⟩
    apply List.mem_append_right
    refine List.mem_map.mpr ⟨q, ?_, rfl⟩
    refine List.mem_filter.mpr ⟨?_, ?_⟩
    · exact List.mem_filter.mpr ⟨hq, hneed⟩
    · simp [hexp]

/-- Witness for the amended C2 at a concrete confirmed entry. -/
theorem disconnect_invalidates_registrations_witness :
    RedoAction.register sampleKey "payload-l" ∈
      scanActions (onDisconnected [(sampleKey, entryLive)]) :=
  ((disconnect_invalidates_registrations [(sampleKey, entryLive)]).2
    (sampleKey, ⟨"payload-l", false, true, 2⟩) (by decide) rfl).2

/-- Replacing the entry of one key pointwise leaves the key list of a
redo table unchanged. -/
theorem keysOf_replace (t : RedoTable) (k : RedoKey) (E : RedoEntry) :
    keysOf (t.map (fun q => if q.1 = k then (k, E) else q)) = keysOf t := by
  induction t with
  | nil => rfl
  | cons q rest ih =>
    simp only [keysOf, List.map_cons] at ih ⊢
    by_cases h : q.1 = k
    · simp [h, ih]
    · simp [h, ih]

/-- A key-filter over a table none of whose entries carry the key is
empty. -/
theorem filter_key_eq_nil (l : RedoTable) (k : RedoKey)
    (h : ∀ q ∈ l, q.1 ≠ k) :
    l.filter (fun q => decide (q.1 = k)) = [] := by
  induction l with
  | nil => rfl
  | cons q rest ih =>
    have hq : q.1 ≠ k := h q (List.mem_cons_self q rest)
    simp only [List.filter_cons, decide_eq_false hq, Bool.false_eq_true, if_false]
    exact ih (fun p hp => h p (List.mem_cons_of_mem q hp))

/-- In a table with unique keys containing the key, replacing the entry
of that key and then filtering for it yields exactly the replacement. -/
theorem filter_replace_nodup (t : RedoTable) (k : RedoKey) (E : RedoEntry)
    (hmem : k ∈ keysOf t) (hnd : (keysOf t).Nodup) :
    (t.map (fun q => if q.1 = k then (k, E) else q)).filter
      (fun q => decide (q.1 = k)) = [(k, E)] := by
  induction t with
  | nil => simp [keysOf] at hmem
  | cons q rest ih =>
    simp only [keysOf, List.map_cons, List.nodup_cons, List.mem_map] at hnd
    by_cases h : q.1 = k
    · have hnotin : ∀ p ∈ rest, p.1 ≠ k := by
        intro p hp hpk
        exact hnd.1 ⟨p, hp, by rw [hpk, h]⟩
      have htail : (rest.map (fun q => if q.1 = k then (k, E) else q)).filter
          (fun q => decide (q.1 = k)) = [] := by
        apply filter_key_eq_nil
        intro r hr
        obtain ⟨p, hp, rfl⟩ := List.mem_map.mp hr
        rw [if_neg (hnotin p hp)]
        exact hnotin p hp
      rw [List.map_cons, if_pos h, List.filter_cons]
      simp [htail]
    · have hmem2 : k ∈ keysOf rest := by
        simp only [keysOf, List.map_cons, List.mem_cons] at hmem
        rcases hmem with h1 | h1
        · exact absurd h1.symm h
        · exact h1
      have hnd2 : (keysOf rest).Nodup := by
        simpa [keysOf] using hnd.2
      have hstep := ih hmem2 hnd2
      rw [List.map_cons, if_neg h, List.filter_cons]
      simp only [decide_eq_false h, Bool.false_eq_true, if_false]
      exact hstep

/-- The cached key is among the keys after `cacheForRedo`. -/
theorem mem_keysOf_cacheForRedo (t : RedoTable) (k : RedoKey) (p : String) :
    k ∈ keysOf (cacheForRedo t k p) := by
  unfold cacheForRedo
  by_cases h : k ∈ keysOf t
  · rw [if_pos h, keysOf_replace]
    exact h
  · rw [if_neg h]
    simp [keysOf]

/-- `cacheForRedo` preserves key uniqueness. -/
theorem nodup_keysOf_cacheForRedo (t : RedoTable) (k : RedoKey) (p : String)
    (hnd : (keysOf t).Nodup) :
    (keysOf (cacheForRedo t k p)).Nodup := by
  unfold cacheForRedo
  by_cases h : k ∈ keysOf t
  · rw [if_pos h, keysOf_replace]
    exact hnd
  · rw [if_neg h]
    have hk : keysOf (t ++ [(k, ⟨p, false, true, 0⟩)]) = keysOf t ++ [k] := by
      simp [keysOf]
    rw [hk]
    refine List.Nodup.append hnd (List.nodup_singleton k) ?_
    intro a ha hak
    rw [List.mem_singleton] at hak
    subst hak
    exact h ha

/-- When the key is already present, `cacheForRedo` overwrites in place. -/
theorem cacheForRedo_mem_eq (t : RedoTable) (k : RedoKey) (p : String)
    (h : k ∈ keysOf t) :
    cacheForRedo t k p =
      t.map (fun q => if q.1 = k then (k, ⟨p, false, true, 0⟩) else q) := by
  unfold cacheForRedo
  rw [if_pos h]

/-- Claim C3: caching the same key twice leaves exactly one entry for it,
carrying the second payload (last write wins), with `expectRegistered`
true, `registered` false and a fresh retry count; key uniqueness is
preserved, so re-registering never duplicates an entry. -/
theorem cacheForRedo_last_write_wins (t : RedoTable) (k : RedoKey) (p1 p2 : String)
    (hnd : (keysOf t).Nodup) :
    (cacheForRedo (cacheForRedo t k p1) k p2).filter (fun q => decide (q.1 = k)) =
      [(k, ⟨p2, false, true, 0⟩)] ∧
    (keysOf (cacheForRedo (cacheForRedo t k p1) k p2)).Nodup := by
  have hmem1 : k ∈ keysOf (cacheForRedo t k p1) := mem_keysOf_cacheForRedo t k p1
  have hnd1 : (keysOf (cacheForRedo t k p1)).Nodup := nodup_keysOf_cacheForRedo t k p1 hnd
  constructor
  · rw [cacheForRedo_mem_eq _ k p2 hmem1]
    exact filter_replace_nodup _ k _ hmem1 hnd1
  · exact nodup_keysOf_cacheForRedo _ k p2 hnd1

/-- Witness for C3 on the empty table at a concrete key. -/
theorem cacheForRedo_last_write_wins_witness :
    (cacheForRedo (cacheForRedo [] sampleKey "p1") sampleKey "p2").filter
      (fun q => decide (q.1 = sampleKey)) =
      [(sampleKey, ⟨"p2", false, true, 0⟩)] :=
  (cacheForRedo_last_write_wins [] sampleKey "p1" "p2" (by decide)).1

/-- An entry of `markForRemoval t k` carrying key `k` has its
`expectRegistered` flag cleared. -/
theorem markForRemoval_clears_expect (t : RedoTable) (k : RedoKey)
    (q : RedoKey × RedoEntry) (hq : q ∈ markForRemoval t k) (hk : q.1 = k) :
    q.2.expectRegistered = false := by
  obtain ⟨q0, _, rfl⟩ := List.mem_map.mp hq
  by_cases h0 : q0.1 = k
  · rw [if_pos h0]
  · rw [if_neg h0] at hk ⊢
    exact absurd hk h0

/-- Claim C4: within one scan tick the issued action list is the removal
actions followed by the registration actions — every removal comes before
any registration; and once `markForRemoval` has run for a key, the tick
issues no registration action for that key, whatever was cached for it
earlier. -/
theorem scan_removals_first (t : RedoTable) (k : RedoKey) :
    (∃ rem reg : List RedoAction,
      scanActions t = rem ++ reg ∧
      (∀ a ∈ rem, RedoAction.isRegister a = false) ∧
      (∀ a ∈ reg, RedoAction.isRegister a = true)) ∧
    (∀ p : String,
      RedoAction.register k p ∉ scanActions (markForRemoval t k)) := by
  constructor
  · refine ⟨_, _, rfl, ?_, ?_⟩
    · intro a ha
      obtain ⟨q, _, rfl⟩ := List.mem_map.mp ha
      rfl
    · intro a ha
      obtain ⟨q, _, rfl⟩ := List.mem_map.mp ha
      rfl
  · intro p hmem
    rcases List.mem_append.mp hmem with h | h
    · obtain ⟨q, _, heq⟩ := List.mem_map.mp h
      exact RedoAction.noConfusion heq
    · obtain ⟨q, hq, heq⟩ := List.mem_map.mp h
      have hk : q.1 = k := by
        injection heq with h1 _
      have hexp : q.2.expectRegistered = true := by
        have := (List.mem_filter.mp hq).2
        simpa using this
      have hq0 : q ∈ markForRemoval t k :=
        (List.mem_filter.mp (List.mem_filter.mp hq).1).1
      have := markForRemoval_clears_expect t k q hq0 hk
      rw [hexp] at this
      exact Bool.noConfusion this

/-- Witness for C4: no registration for the marked key at a concrete
table. -/
theorem scan_removals_first_witness :
    RedoAction.register sampleKey "payload-l" ∉
      scanActions (markForRemoval [(sampleKey, entryLive)] sampleKey) :=
  (scan_removals_first [(sampleKey, entryLive)] sampleKey).2 "payload-l"

/-- Claim C5: a request pending on a connection that is lost before its
deadline resolves with ConnectionLost at the instant of the loss —
strictly before its timeout deadline, not with Timeout after it — and
every outstanding slot of that connection is resolved at once, leaving
the pending table empty. -/
theorem connectionLost_fast_fail (d : Dispatcher) (r : PendingRequest) (now : Nat)
    (hmem : r ∈ d.pending) (hbefore : now < r.deadline) :
    (⟨r.rid, now, ReqOutcome.fail ReqError.ConnectionLost⟩ : Resolution) ∈
      (dispatcherStep d (DispatchEvent.connectionLost now)).2 ∧
    now < r.deadline ∧
    (dispatcherStep d (DispatchEvent.connectionLost now)).1.pending = [] ∧
    (∀ res ∈ (dispatcherStep d (DispatchEvent.connectionLost now)).2,
      res.time = now ∧ res.outcome = ReqOutcome.fail ReqError.ConnectionLost) := by
  refine ⟨?_, hbefore, rfl, ?_⟩
  · exact List.mem_map.mpr ⟨r, hmem, rfl⟩
  · intro res hres
    obtain ⟨q, _, rfl⟩ := List.mem_map.mp hres
    exact ⟨rfl, rfl⟩

/-- Witness for C5 at a concrete pending request and loss instant. -/
theorem connectionLost_fast_fail_witness :
    (⟨1, 5, ReqOutcome.fail ReqError.ConnectionLost⟩ : Resolution) ∈
      (dispatcherStep ⟨[samplePending]⟩ (DispatchEvent.connectionLost 5)).2 :=
  (connectionLost_fast_fail ⟨[samplePending]⟩ samplePending 5
    (by decide) (by decide)).1

/-- Claim C6: an entry whose registration the client still expects is
never deleted by a scan tick, whatever its retry count and whatever the
request outcomes — even past the retry cap it stays in the table and
keeps being due at the capped-frequency ticks — and a successful
confirmation resets its retry count to zero. -/
theorem redoExhausted_retained (cap : Nat) (t : RedoTable)
    (success : RedoKey → Bool) (k : RedoKey) (e : RedoEntry)
    (hmem : (k, e) ∈ t) (hexp : e.expectRegistered = true) :
    k ∈ keysOf (redoTick success t) ∧
    (∀ m : Nat, ∃ n : Nat, m ≤ n ∧
      ((k, e) ∈ dueEntries t → (k, e) ∈ dueAtTick cap n t)) ∧
    (needsRedo e = true → success k = true →
      (k, ⟨e.payload, true, true, 0⟩) ∈ redoTick success t) := by
  refine ⟨?_, ?_, ?_⟩
  · have hsome : ∃ e2 : RedoEntry, applyOutcome success (k, e) = some (k, e2) := by
      cases hn : needsRedo e with
      | false => exact ⟨e, by simp [applyOutcome, hn]⟩
      | true =>
        cases hs : success k with
        | false =>
          exact ⟨⟨e.payload, false, true, e.retryCount + 1⟩,
            by simp [applyOutcome, hn, hexp, hs]⟩
        | true =>
          exact ⟨⟨e.payload, true, true, 0⟩,
            by simp [applyOutcome, hn, hexp, hs]⟩
    obtain ⟨e2, he2⟩ := hsome
    have hin : (k, e2) ∈ redoTick success t :=
      List.mem_filterMap.mpr ⟨(k, e), hmem, he2⟩
    exact List.mem_map.mpr ⟨(k, e2), hin, rfl⟩
  · intro m
    refine ⟨(m / exhaustedRetryPeriod + 1) * exhaustedRetryPeriod, ?_, ?_⟩
    · have hP : 0 < exhaustedRetryPeriod := by decide
      have h1 : m < exhaustedRetryPeriod * (m / exhaustedRetryPeriod) +
          exhaustedRetryPeriod := by
        conv_lhs => rw [← Nat.div_add_mod m exhaustedRetryPeriod]
        exact Nat.add_lt_add_left (Nat.mod_lt _ hP) _
      have h2 : exhaustedRetryPeriod * (m / exhaustedRetryPeriod) +
          exhaustedRetryPeriod =
          (m / exhaustedRetryPeriod + 1) * exhaustedRetryPeriod := by
        ring
      exact le_of_lt (h2 ▸ h1)
    · intro hdue
      refine List.mem_filter.mpr ⟨hdue, ?_⟩
      have hmod : (m / exhaustedRetryPeriod + 1) * exhaustedRetryPeriod %
          exhaustedRetryPeriod = 0 :=
        Nat.mul_mod_left _ _
      simp [hmod]
  · intro hn hs
    refine List.mem_filterMap.mpr ⟨(k, e), hmem, ?_⟩
    simp [applyOutcome, hn, hexp, hs]

/-- Witness for C6 at a concrete entry past the retry cap. -/
theorem redoExhausted_retained_witness :
    sampleKey ∈ keysOf (redoTick (fun _ => true) [(sampleKey, entryExhausted)]) ∧
    (sampleKey, ⟨"payload-x", true, true, 0⟩) ∈
      redoTick (fun _ => true) [(sampleKey, entryExhausted)] :=
  ⟨(redoExhausted_retained 3 [(sampleKey, entryExhausted)] (fun _ => true)
      sampleKey entryExhausted (by decide) rfl).1,
   (redoExhausted_retained 3 [(sampleKey, entryExhausted)] (fun _ => true)
      sampleKey entryExhausted (by decide) rfl).2.2 rfl rfl⟩
